import Mathlib

/-!
Verification of the transfer-hook program (`src/program/src/processor.rs`,
`src/interface/src/error.rs`) against its specification.

The processor is shallowly embedded: account state is a list of `AccountInfo`
records, every handler is a pure function from a program id, an account list
and its arguments to `Except ProgramError (List AccountInfo)` returning the
updated account list on success.  Machine integers are `Nat`, with truncation
to 8 little-endian bytes where the code serialises a `u64`.  Parts of the
system that the specification describes but whose code lives outside `src/`
(instruction encoding, the TLV extra-account-meta list, the token/mint decode
service, address derivation, the system-program account operations) are
modelled from the specification; each such definition says so in its doc
comment.
-/

namespace TransferHook

/-- Little-endian byte serialisation of a natural number into `n` bytes,
truncating at `2 ^ (8 * n)` exactly as Rust's `to_le_bytes` does. -/
def leBytesN : Nat → Nat → List Nat
  | 0, _ => []
  | n + 1, v => v % 256 :: leBytesN n (v / 256)

/-- Little-endian interpretation of a byte list, as in `from_le_bytes`. -/
def fromLeBytes (bs : List Nat) : Nat :=
  bs.foldr (fun b acc => acc * 256 + b) 0

/-- A public key; the 32-byte Rust `Pubkey` is modelled as its little-endian
value, an arbitrary `Nat` below `2 ^ 256`. -/
abbrev Pubkey := Nat

theorem leBytesN_length (n v : Nat) : (leBytesN n v).length = n := by
  induction n generalizing v with
  | zero => rfl
  | succ n ih => simp [leBytesN, ih]

theorem fromLeBytes_cons (b : Nat) (bs : List Nat) :
    fromLeBytes (b :: bs) = fromLeBytes bs * 256 + b := rfl

theorem fromLeBytes_leBytesN (n v : Nat) :
    fromLeBytes (leBytesN n v) = v % 256 ^ n := by
  induction n generalizing v with
  | zero => simp [leBytesN, fromLeBytes, Nat.mod_one]
  | succ n ih =>
      rw [leBytesN, fromLeBytes_cons, ih, pow_succ]
      rw [mul_comm (256 ^ n) 256, Nat.mod_mul]
      ring

theorem fromLeBytes_append (xs ys : List Nat) :
    fromLeBytes (xs ++ ys) = fromLeBytes xs + fromLeBytes ys * 256 ^ xs.length := by
  induction xs with
  | nil => simp [fromLeBytes]
  | cons x xs ih =>
      rw [List.cons_append, fromLeBytes_cons, fromLeBytes_cons, ih,
        List.length_cons, pow_succ]
      ring

/-- `src/interface/src/error.rs`: the `TransferHookError` enum. -/
inductive TransferHookError where
  | IncorrectAccount
  | MintHasNoMintAuthority
  | IncorrectMintAuthority
  | ProgramCalledOutsideOfTransfer
deriving DecidableEq

/-- `src/interface/src/error.rs`: the `#[repr(u32)]` discriminants, starting
at `2_110_272_652`. -/
def TransferHookError.code : TransferHookError → Nat
  | .IncorrectAccount => 2110272652
  | .MintHasNoMintAuthority => 2110272653
  | .IncorrectMintAuthority => 2110272654
  | .ProgramCalledOutsideOfTransfer => 2110272655

/-- The host error surface used by the processor.  `Custom` carries a `u32`
code, as in `ProgramError::Custom`. -/
inductive ProgramError where
  | NotEnoughAccountKeys
  | MissingRequiredSignature
  | InvalidSeeds
  | InvalidAccountData
  | InvalidInstructionData
  | InvalidArgument
  | UninitializedAccount
  | IllegalOwner
  | Custom (code : Nat)
deriving DecidableEq

/-- `src/interface/src/error.rs`: `impl From<TransferHookError> for
ProgramError` maps the error onto `ProgramError::Custom(e as u32)`. -/
def TransferHookError.toProgramError (e : TransferHookError) : ProgramError :=
  .Custom e.code

/-- One account presented to an instruction: address, balance, raw data,
owning program and signer flag, mirroring the fields of `AccountInfo` the
processor reads or writes. -/
structure AccountInfo where
  key : Pubkey
  lamports : Nat
  data : List Nat
  owner : Pubkey
  is_signer : Bool
deriving DecidableEq

/-- Overwrite `dst[offset .. offset + src.length]` with `src`, the effect of
Rust's `copy_from_slice` on a sub-slice (claims only apply it where the Rust
ranges are in bounds). -/
def writeSlice (dst : List Nat) (offset : Nat) (src : List Nat) : List Nat :=
  dst.take offset ++ src ++ dst.drop (offset + src.length)

/-- `processor.rs`: `TransferAccount::LEN = 32 + 8`. -/
def TransferAccount.LEN : Nat := 32 + 8

/-- `processor.rs`: `TransferAccount::pack` writes the owner key at offset 0
and the little-endian amount at offset 32 into `dst`. -/
def TransferAccount.pack (owner : Pubkey) (transfered : Nat) (dst : List Nat) : List Nat :=
  writeSlice (writeSlice dst 0 (leBytesN 32 owner)) 32 (leBytesN 8 transfered)

/-- `processor.rs`: `TransferAccount::unpack` fails with `InvalidAccountData`
on inputs shorter than 40 bytes, otherwise reads the owner key at offset 0 and
the little-endian amount at offset 32. -/
def TransferAccount.unpack (src : List Nat) : Except ProgramError (Pubkey × Nat) :=
  if src.length < TransferAccount.LEN then .error .InvalidAccountData
  else .ok (fromLeBytes (src.take 32), fromLeBytes ((src.drop 32).take 8))

/-- `processor.rs`: `TransferAccount::update_transfered` overwrites only the
8 bytes at offset 32 with the little-endian amount. -/
def TransferAccount.update_transfered (data : List Nat) (transfered : Nat) : List Nat :=
  writeSlice data 32 (leBytesN 8 transfered)

theorem writeSlice_zero (dst src : List Nat) :
    writeSlice dst 0 src = src ++ dst.drop src.length := by
  simp [writeSlice]

theorem writeSlice_length (dst src : List Nat) (offset : Nat)
    (h : offset + src.length ≤ dst.length) :
    (writeSlice dst offset src).length = dst.length := by
  simp only [writeSlice, List.length_append, List.length_take, List.length_drop]
  omega

/-- Modelled from the spec: the deterministic address deriver (§4.1,
`Pubkey::find_program_address` in the host library, outside `src/`).  The real
derivation hashes the seed byte-strings with the program id; the model uses an
injective numeric encoding offset past `2 ^ 256` (derived addresses are
off-curve, never equal to an ordinary signer key), together with a fixed bump
byte.  Determinism and per-seed-set distinctness are preserved. -/
def encodeBytes (bs : List Nat) : Nat :=
  bs.foldl (fun a b => a * 257 + b % 256 + 1) 0

/-- Modelled from the spec: seed-list encoding for `find_program_address`. -/
def encodeSeeds (seeds : List (List Nat)) : Nat :=
  seeds.foldl (fun a s => Nat.pair a (encodeBytes s)) 0

/-- Modelled from the spec: `find_program_address` returns the derived
address and a bump seed (§4.1). -/
def find_program_address (seeds : List (List Nat)) (program_id : Pubkey) :
    Pubkey × Nat :=
  (Nat.pair (encodeSeeds seeds) program_id + 2 ^ 256, 255)

/-- Modelled from the spec: the fixed namespace tag prefixed to the mint key
when deriving the metadata-list address (the `"extra-account-metas"` seed of
`get_extra_account_metas_address`, outside `src/`). -/
def extraAccountMetasSeed : List Nat := [101, 97, 109, 115]

/-- Modelled from the spec: `get_extra_account_metas_address_and_bump_seed`
derives the metadata-list address from the fixed tag and the mint key. -/
def get_extra_account_metas_address_and_bump_seed (mint : Pubkey)
    (program_id : Pubkey) : Pubkey × Nat :=
  find_program_address [extraAccountMetasSeed, leBytesN 32 mint] program_id

/-- Modelled from the spec: `get_extra_account_metas_address`. -/
def get_extra_account_metas_address (mint : Pubkey) (program_id : Pubkey) : Pubkey :=
  (get_extra_account_metas_address_and_bump_seed mint program_id).1

/-- Modelled from the spec: decoding the transfer-in-progress flag out of a
token account's extension data (§3, §4.4; `StateWithExtensions::<Account>` +
`get_extension::<TransferHookAccount>`, an external opaque decode service).
In the model a well-formed token account's data is tag byte `1` followed by
the flag byte (nonzero meaning "transferring"); anything else is a decode
failure, which the gate propagates. -/
def decodeTransferFlag (data : List Nat) : Except ProgramError Bool :=
  match data with
  | 1 :: f :: _ => .ok (f != 0)
  | _ => .error .InvalidAccountData

/-- Modelled from the spec: decoding the recorded mint authority out of a
mint account (`StateWithExtensions::<Mint>`, an external opaque decode
service).  A well-formed mint's data is tag byte `2`, a presence byte, and —
when present — the 32 authority key bytes. -/
def decodeMintAuthority (data : List Nat) :
    Except ProgramError (Option Pubkey) :=
  match data with
  | 2 :: 0 :: _ => .ok none
  | 2 :: 1 :: rest =>
      if rest.length = 32 then .ok (some (fromLeBytes rest))
      else .error .InvalidAccountData
  | _ => .error .InvalidAccountData

/-- One entry of the extra-accounts metadata list (§3, §4.3): a discriminator
selecting literal address (0) or seed derivation, a 32-byte address
configuration modelled by its numeric value, and the signer/writable
attribute flags packed in one byte. -/
structure ExtraAccountMeta where
  discriminator : Nat
  addressConfig : Nat
  flags : Nat
deriving DecidableEq

/-- Modelled from the spec: serialised size of one list entry
(discriminator byte + 32 config bytes + flags byte). -/
def metaSize : Nat := 34

/-- Modelled from the spec: serialised size of the list header holding the
entry count (§3: "Header: entry count"). -/
def headerSize : Nat := 4

/-- Modelled from the spec: byte serialisation of one entry. -/
def serializeMeta (m : ExtraAccountMeta) : List Nat :=
  m.discriminator % 256 :: (leBytesN 32 m.addressConfig ++ [m.flags % 256])

/-- Modelled from the spec: byte serialisation of the whole list, a
count header followed by the entries in order. -/
def serializeList (metas : List ExtraAccountMeta) : List Nat :=
  leBytesN headerSize metas.length ++ (metas.map serializeMeta).flatten

/-- Modelled from the spec: parse one serialised entry. -/
def parseMeta (chunk : List Nat) : ExtraAccountMeta :=
  { discriminator := chunk.headD 0
    addressConfig := fromLeBytes ((chunk.drop 1).take 32)
    flags := chunk.getD 33 0 }

/-- Modelled from the spec: parse `n` consecutive serialised entries,
failing with the given error when the bytes run out (a malformed list). -/
def parseMetas (err : ProgramError) : Nat → List Nat → Except ProgramError (List ExtraAccountMeta)
  | 0, _ => .ok []
  | n + 1, bytes =>
      if bytes.length < metaSize then .error err
      else
        match parseMetas err n (bytes.drop metaSize) with
        | .error e => .error e
        | .ok rest => .ok (parseMeta (bytes.take metaSize) :: rest)

/-- Modelled from the spec: deserialise a stored metadata list (the TLV
read used by `check_account_infos` and the re-read in `process_execute`);
a malformed list fails with `IncorrectAccount` (§4.3). -/
def deserializeList (data : List Nat) : Except ProgramError (List ExtraAccountMeta) :=
  if data.length < headerSize then
    .error (TransferHookError.toProgramError .IncorrectAccount)
  else
    parseMetas (TransferHookError.toProgramError .IncorrectAccount)
      (fromLeBytes (data.take headerSize)) (data.drop headerSize)

/-- Modelled from the spec: `ExtraAccountMetaList::size_of(entry_count)`,
exact storage size of a header plus N entries, failing when the count
overflows the configured maximum (§4.3). -/
def ExtraAccountMetaList.size_of (n : Nat) : Except ProgramError Nat :=
  if n < 2 ^ 32 then .ok (headerSize + metaSize * n)
  else .error .InvalidAccountData

/-- Modelled from the spec: `ExtraAccountMetaList::init` writes header plus
entries into the buffer, failing when the buffer is too small (§4.3). -/
def ExtraAccountMetaList.init (buf : List Nat) (metas : List ExtraAccountMeta) :
    Except ProgramError (List Nat) :=
  match ExtraAccountMetaList.size_of metas.length with
  | .error e => .error e
  | .ok sz =>
      if buf.length < sz then .error .InvalidAccountData
      else .ok (writeSlice buf 0 (serializeList metas))

/-- Modelled from the spec: `ExtraAccountMetaList::update` rewrites header
plus entries into existing storage; bytes past the rewritten region are left
in place (the caller resizes per the §4.3 ordering contract). -/
def ExtraAccountMetaList.update (buf : List Nat) (metas : List ExtraAccountMeta) :
    Except ProgramError (List Nat) :=
  match ExtraAccountMetaList.size_of metas.length with
  | .error e => .error e
  | .ok sz =>
      if buf.length < sz then .error .InvalidAccountData
      else .ok (writeSlice buf 0 (serializeList metas))

/-- Modelled from the spec: resolve one stored entry to the concrete address
the presented account must match (§4.3): a literal entry carries the address
itself; a seed-derived entry derives it from its seed configuration and the
instruction data via the address deriver; any other discriminator is
malformed and rejected with `IncorrectAccount`. -/
def resolveExpectedKey (m : ExtraAccountMeta) (instructionData : List Nat)
    (program_id : Pubkey) : Except ProgramError Pubkey :=
  if m.discriminator = 0 then .ok m.addressConfig
  else if m.discriminator = 1 then
    .ok (find_program_address [leBytesN 32 m.addressConfig, instructionData] program_id).1
  else .error (TransferHookError.toProgramError .IncorrectAccount)

/-- Modelled from the spec: check the presented accounts from position `i`
onwards against the resolved entries, strictly in order; a missing or
mismatched account fails with `IncorrectAccount` (§4.3). -/
def checkMetasFrom (accounts : List AccountInfo) (instructionData : List Nat)
    (program_id : Pubkey) : List ExtraAccountMeta → Nat → Except ProgramError Unit
  | [], _ => .ok ()
  | m :: rest, i =>
      match accounts[i]? with
      | none => .error (TransferHookError.toProgramError .IncorrectAccount)
      | some acc =>
          match resolveExpectedKey m instructionData program_id with
          | .error e => .error e
          | .ok expected =>
              if acc.key = expected then
                checkMetasFrom accounts instructionData program_id rest (i + 1)
              else .error (TransferHookError.toProgramError .IncorrectAccount)

/-- Modelled from the spec: `ExtraAccountMetaList::check_account_infos`
resolves every stored entry and verifies the presented account list holds, at
the trailing positions after the five Execute header accounts, exactly the
expected addresses in order (§4.3, §6). -/
def ExtraAccountMetaList.check_account_infos (accounts : List AccountInfo)
    (instructionData : List Nat) (program_id : Pubkey) (data : List Nat) :
    Except ProgramError Unit :=
  match deserializeList data with
  | .error e => .error e
  | .ok metas => checkMetasFrom accounts instructionData program_id metas 5

/-- `processor.rs` line 30: `check_token_account_is_transferring` decodes the
token account and fails with `ProgramCalledOutsideOfTransfer` when the
transferring flag is false, propagating decode failures. -/
def check_token_account_is_transferring (account_info : AccountInfo) :
    Except ProgramError Unit :=
  match decodeTransferFlag account_info.data with
  | .error e => .error e
  | .ok true => .ok ()
  | .ok false => .error (TransferHookError.toProgramError .ProgramCalledOutsideOfTransfer)

/-- `processor.rs` line 87: the reserved custom discriminator byte. -/
def INITIALIZE_TRANSFER_ACCOUNT : Nat := 255

/-- Modelled from the spec: the host rent schedule
(`Rent::default().minimum_balance`): per-byte-year cost 3480, two-year
exemption threshold, 128-byte account overhead. -/
def rentMinimumBalance (size : Nat) : Nat := (128 + size) * 6960

/-- `processor.rs` line 95: `process_initialize_transfer_account`.  The
`invoke_signed(create_account, ...)` call is modelled from the spec as the
system program's effect: debit the payer, fund the new account to the
rent-exempt minimum, allocate `TransferAccount::LEN` zeroed bytes and assign
ownership to this program (a payer with insufficient funds makes the inner
invocation fail, modelled as `Custom 1`). -/
def process_initialize_transfer_account (program_id : Pubkey)
    (accounts : List AccountInfo) : Except ProgramError (List AccountInfo) :=
  match accounts with
  | owner_info :: transfer_account_info :: system_program_info :: rest =>
      if ¬ owner_info.is_signer then .error .MissingRequiredSignature
      else if transfer_account_info.key ≠
          (find_program_address [leBytesN 32 owner_info.key] program_id).1 then
        .error .InvalidSeeds
      else if transfer_account_info.lamports > 0 then .ok accounts
      else
        let required := rentMinimumBalance TransferAccount.LEN
        if owner_info.lamports < required then .error (.Custom 1)
        else
          let payer : AccountInfo :=
            { owner_info with lamports := owner_info.lamports - required }
          let created : AccountInfo :=
            { transfer_account_info with
                lamports := required
                owner := program_id
                data := List.replicate TransferAccount.LEN 0 }
          let written : AccountInfo :=
            { created with data := TransferAccount.pack owner_info.key 0 created.data }
          .ok (payer :: written :: system_program_info :: rest)
  | _ => .error .NotEnoughAccountKeys

/-- Modelled from the spec: `TransferHookInstruction::Execute { amount }.pack()`
(§6): the Execute discriminator byte followed by the 8-byte little-endian
amount. -/
def packExecuteInstruction (amount : Nat) : List Nat :=
  0 :: leBytesN 8 amount

/-- `processor.rs` line 156: `process_execute`.  The five header accounts are
consumed in order, both token accounts must be mid-transfer, the metadata-list
address is recomputed and compared, the stored list is checked against the
presented accounts and then re-read, and the trailing counter account —
required to exist and be program-owned — has its cumulative amount increased
by `amount` in place (the stored field is the 8-byte little-endian
truncation). -/
def process_execute (program_id : Pubkey) (accounts : List AccountInfo)
    (amount : Nat) : Except ProgramError (List AccountInfo) :=
  match accounts with
  | source :: mint :: dest :: authority :: extra_account_metas_info :: rest =>
      match check_token_account_is_transferring source with
      | .error e => .error e
      | .ok _ =>
      match check_token_account_is_transferring dest with
      | .error e => .error e
      | .ok _ =>
      if get_extra_account_metas_address mint.key program_id ≠
          extra_account_metas_info.key then .error .InvalidSeeds
      else
        match ExtraAccountMetaList.check_account_infos accounts
            (packExecuteInstruction amount) program_id
            extra_account_metas_info.data with
        | .error e => .error e
        | .ok _ =>
        match deserializeList extra_account_metas_info.data with
        | .error e => .error e
        | .ok _ =>
        match rest with
        | [] => .error .NotEnoughAccountKeys
        | transfer_account :: more =>
            if transfer_account.lamports = 0 then .error .UninitializedAccount
            else if transfer_account.owner ≠ program_id then .error .IllegalOwner
            else
              match TransferAccount.unpack transfer_account.data with
              | .error e => .error e
              | .ok ko =>
                  .ok (source :: mint :: dest :: authority ::
                    extra_account_metas_info ::
                    { transfer_account with
                        data := TransferAccount.update_transfered
                          transfer_account.data (ko.2 + amount) } :: more)
  | _ => .error .NotEnoughAccountKeys

/-- `processor.rs` line 229: `process_initialize_extra_account_meta_list`.
The mint authority is decoded first, then the signer and authority-match
checks run, then the derived list address is compared; the
`invoke_signed(allocate/assign, ...)` pair is modelled from the spec as
setting the account's data to `size_of(len)` zeroed bytes owned by this
program before `ExtraAccountMetaList::init` writes the entries.  (The
compile-time `forbid-additional-mints` restriction is off and not
modelled.) -/
def process_initialize_extra_account_meta_list (program_id : Pubkey)
    (accounts : List AccountInfo) (extra_account_metas : List ExtraAccountMeta) :
    Except ProgramError (List AccountInfo) :=
  match accounts with
  | extra_account_metas_info :: mint_info :: authority_info :: system_program_info :: rest =>
      match decodeMintAuthority mint_info.data with
      | .error e => .error e
      | .ok none => .error (TransferHookError.toProgramError .MintHasNoMintAuthority)
      | .ok (some mint_authority) =>
          if ¬ authority_info.is_signer then .error .MissingRequiredSignature
          else if authority_info.key ≠ mint_authority then
            .error (TransferHookError.toProgramError .IncorrectMintAuthority)
          else if (get_extra_account_metas_address_and_bump_seed mint_info.key
              program_id).1 ≠ extra_account_metas_info.key then
            .error .InvalidSeeds
          else
            match ExtraAccountMetaList.size_of extra_account_metas.length with
            | .error e => .error e
            | .ok account_size =>
                let allocated : AccountInfo :=
                  { extra_account_metas_info with
                      owner := program_id
                      data := List.replicate account_size 0 }
                match ExtraAccountMetaList.init allocated.data extra_account_metas with
                | .error e => .error e
                | .ok newData =>
                    .ok ({ allocated with data := newData } :: mint_info ::
                      authority_info :: system_program_info :: rest)
  | _ => .error .NotEnoughAccountKeys

/-- Modelled from the spec: `AccountInfo::resize` truncates on shrink and
zero-pads on growth. -/
def resizeData (data : List Nat) (newLen : Nat) : List Nat :=
  if newLen ≤ data.length then data.take newLen
  else data ++ List.replicate (newLen - data.length) 0

/-- `processor.rs` line 297: `process_update_extra_account_meta_list`: same
authority and address checks as initialisation, then the list account must
already be program-owned with at least `size_of(0)` bytes, and the storage is
resized to `size_of(new length)` — growing before the rewrite, or rewriting
before the shrink. -/
def process_update_extra_account_meta_list (program_id : Pubkey)
    (accounts : List AccountInfo) (extra_account_metas : List ExtraAccountMeta) :
    Except ProgramError (List AccountInfo) :=
  match accounts with
  | extra_account_metas_info :: mint_info :: authority_info :: rest =>
      match decodeMintAuthority mint_info.data with
      | .error e => .error e
      | .ok none => .error (TransferHookError.toProgramError .MintHasNoMintAuthority)
      | .ok (some mint_authority) =>
          if ¬ authority_info.is_signer then .error .MissingRequiredSignature
          else if authority_info.key ≠ mint_authority then
            .error (TransferHookError.toProgramError .IncorrectMintAuthority)
          else if get_extra_account_metas_address mint_info.key program_id ≠
              extra_account_metas_info.key then
            .error .InvalidSeeds
          else
            match ExtraAccountMetaList.size_of 0 with
            | .error e => .error e
            | .ok min_account_size =>
                if program_id ≠ extra_account_metas_info.owner ∨
                    extra_account_metas_info.data.length < min_account_size then
                  .error .UninitializedAccount
                else
                  match ExtraAccountMetaList.size_of extra_account_metas.length with
                  | .error e => .error e
                  | .ok account_size =>
                      if account_size ≥ extra_account_metas_info.data.length then
                        match ExtraAccountMetaList.update
                            (resizeData extra_account_metas_info.data account_size)
                            extra_account_metas with
                        | .error e => .error e
                        | .ok newData =>
                            .ok ({ extra_account_metas_info with data := newData } ::
                              mint_info :: authority_info :: rest)
                      else
                        match ExtraAccountMetaList.update
                            extra_account_metas_info.data extra_account_metas with
                        | .error e => .error e
                        | .ok written =>
                            .ok ({ extra_account_metas_info with
                                data := resizeData written account_size } ::
                              mint_info :: authority_info :: rest)
  | _ => .error .NotEnoughAccountKeys

/-- Modelled from the spec: the decoded standard instruction set (§6). -/
inductive TransferHookInstruction where
  | Execute (amount : Nat)
  | InitializeExtraAccountMetaList (extra_account_metas : List ExtraAccountMeta)
  | UpdateExtraAccountMetaList (extra_account_metas : List ExtraAccountMeta)
deriving DecidableEq

/-- Modelled from the spec: the length-prefixed entry-list payload of the
list-management instructions (§6). -/
def parseMetasPayload (bytes : List Nat) :
    Except ProgramError (List ExtraAccountMeta) :=
  if bytes.length < 4 then .error .InvalidInstructionData
  else parseMetas .InvalidInstructionData (fromLeBytes (bytes.take 4)) (bytes.drop 4)

/-- Modelled from the spec: `TransferHookInstruction::unpack` (§6): byte 0 is
the discriminator — Execute (here 0) carries an 8-byte little-endian amount,
the list-management instructions (here 1 and 2) carry a length-prefixed entry
list. -/
def unpackInstruction (input : List Nat) :
    Except ProgramError TransferHookInstruction :=
  match input with
  | 0 :: rest =>
      if rest.length = 8 then .ok (.Execute (fromLeBytes rest))
      else .error .InvalidInstructionData
  | 1 :: rest =>
      match parseMetasPayload rest with
      | .error e => .error e
      | .ok metas => .ok (.InitializeExtraAccountMetaList metas)
  | 2 :: rest =>
      match parseMetasPayload rest with
      | .error e => .error e
      | .ok metas => .ok (.UpdateExtraAccountMetaList metas)
  | _ => .error .InvalidInstructionData

/-- `processor.rs` line 357: the dispatcher `process`.  A leading byte equal
to the reserved discriminator 255 routes to the custom initialise-counter
handler; otherwise the buffer is decoded as a standard instruction.  Note the
source routes `UpdateExtraAccountMetaList` to `return Ok(())` with the call
to `process_update_extra_account_meta_list` commented out, so that arm
succeeds without touching any account. -/
def process (program_id : Pubkey) (accounts : List AccountInfo)
    (input : List Nat) : Except ProgramError (List AccountInfo) :=
  if input ≠ [] ∧ input.headD 0 = INITIALIZE_TRANSFER_ACCOUNT then
    process_initialize_transfer_account program_id accounts
  else
    match unpackInstruction input with
    | .error e => .error e
    | .ok (.Execute amount) => process_execute program_id accounts amount
    | .ok (.InitializeExtraAccountMetaList extra_account_metas) =>
        process_initialize_extra_account_meta_list program_id accounts extra_account_metas
    | .ok (.UpdateExtraAccountMetaList _) => .ok accounts

theorem take_append_of_length (l₁ l₂ : List Nat) (n : Nat) (h : l₁.length = n) :
    (l₁ ++ l₂).take n = l₁ := by
  subst h; exact List.take_left l₁ l₂

theorem drop_append_of_length (l₁ l₂ : List Nat) (n : Nat) (h : l₁.length = n) :
    (l₁ ++ l₂).drop n = l₂ := by
  subst h; exact List.drop_left l₁ l₂

theorem fromLeBytes_leBytesN_eq (n v : Nat) (h : v < 256 ^ n) :
    fromLeBytes (leBytesN n v) = v := by
  rw [fromLeBytes_leBytesN, Nat.mod_eq_of_lt h]

theorem pack_eq (owner : Pubkey) (amount : Nat) (buf : List Nat)
    (hb : buf.length = 40) :
    TransferAccount.pack owner amount buf = leBytesN 32 owner ++ leBytesN 8 amount := by
  have h1 : writeSlice buf 0 (leBytesN 32 owner) = leBytesN 32 owner ++ buf.drop 32 := by
    rw [writeSlice_zero, leBytesN_length]
  have hlen : (leBytesN 32 owner ++ buf.drop 32).length = 40 := by
    simp [leBytesN_length, hb]
  rw [TransferAccount.pack, h1]
  unfold writeSlice
  rw [take_append_of_length _ _ 32 (leBytesN_length 32 owner), leBytesN_length]
  have hnil : (leBytesN 32 owner ++ buf.drop 32).drop (32 + 8) = [] :=
    List.drop_eq_nil_iff.2 (le_of_eq hlen)
  rw [hnil, List.append_nil]

/-- C8: the transfer-counter codec round-trips — `unpack` after `pack` on a
40-byte buffer returns the original owner and amount; `update_transfered` on
any buffer of at least 40 bytes replaces exactly the 8 amount bytes at offset
32, leaving the 32 owner bytes (and anything past offset 40) unchanged; and
`unpack` of any input shorter than 40 bytes fails with `InvalidAccountData`. -/
theorem transfer_account_codec_roundtrip
    (owner : Pubkey) (amount newAmount : Nat) (buf buf2 src : List Nat)
    (hk : owner < 2 ^ 256) (ha : amount < 2 ^ 64)
    (hb : buf.length = 40) (hb2 : 40 ≤ buf2.length) (hshort : src.length < 40) :
    TransferAccount.unpack (TransferAccount.pack owner amount buf) = .ok (owner, amount)
    ∧ (TransferAccount.update_transfered buf2 newAmount).take 32 = buf2.take 32
    ∧ (TransferAccount.update_transfered buf2 newAmount).drop 32
        = leBytesN 8 newAmount ++ buf2.drop 40
    ∧ TransferAccount.unpack src = .error .InvalidAccountData := by
  have h256 : (256 : Nat) ^ 32 = 2 ^ 256 := by norm_num
  have h64 : (256 : Nat) ^ 8 = 2 ^ 64 := by norm_num
  have htk : (buf2.take 32).length = 32 := by rw [List.length_take]; omega
  refine ⟨?_, ?_, ?_, ?_⟩
  · rw [pack_eq owner amount buf hb]
    have hlen : (leBytesN 32 owner ++ leBytesN 8 amount).length = 40 := by
      simp [leBytesN_length]
    rw [TransferAccount.unpack, if_neg (by rw [hlen, TransferAccount.LEN]; omega)]
    rw [take_append_of_length _ _ 32 (leBytesN_length 32 owner),
      drop_append_of_length _ _ 32 (leBytesN_length 32 owner)]
    rw [List.take_of_length_le (le_of_eq (leBytesN_length 8 amount))]
    rw [fromLeBytes_leBytesN_eq 32 owner (h256 ▸ hk),
      fromLeBytes_leBytesN_eq 8 amount (h64 ▸ ha)]
  · rw [TransferAccount.update_transfered, writeSlice, List.append_assoc]
    exact take_append_of_length _ _ 32 htk
  · rw [TransferAccount.update_transfered, writeSlice, List.append_assoc]
    rw [drop_append_of_length _ _ 32 htk, leBytesN_length]
  · rw [TransferAccount.unpack, if_pos (by rw [TransferAccount.LEN]; omega)]

/-- C8 witness: the codec properties evaluated at owner 5, amount 7, a zeroed
40-byte buffer, a 41-byte buffer and a 3-byte input. -/
theorem transfer_account_codec_roundtrip_witness :
    TransferAccount.unpack (TransferAccount.pack 5 7 (List.replicate 40 0)) = .ok (5, 7)
    ∧ (TransferAccount.update_transfered (List.replicate 41 2) 9).take 32
        = (List.replicate 41 2).take 32
    ∧ (TransferAccount.update_transfered (List.replicate 41 2) 9).drop 32
        = leBytesN 8 9 ++ (List.replicate 41 2).drop 40
    ∧ TransferAccount.unpack [1, 2, 3] = .error .InvalidAccountData :=
  transfer_account_codec_roundtrip 5 7 9 (List.replicate 40 0) (List.replicate 41 2)
    [1, 2, 3] (by norm_num) (by norm_num) (by simp) (by simp) (by simp)

/-- C7: `InitializeTransferAccount` is idempotent — when the owner signed,
the presented counter address matches the derivation from the owner key, and
the counter account is already funded, the dispatcher returns success leaving
every account (the counter record in particular) unchanged; hence a second
call after a successful first call is a byte-identical no-op. -/
theorem initialize_transfer_account_idempotent
    (pid : Pubkey) (o ta s : AccountInfo) (rest : List AccountInfo)
    (hsig : o.is_signer = true)
    (hpda : ta.key = (find_program_address [leBytesN 32 o.key] pid).1)
    (hfunded : 0 < ta.lamports) :
    process pid (o :: ta :: s :: rest) [INITIALIZE_TRANSFER_ACCOUNT]
      = .ok (o :: ta :: s :: rest) := by
  rw [process, if_pos (by constructor <;> simp [INITIALIZE_TRANSFER_ACCOUNT])]
  rw [process_initialize_transfer_account]
  rw [if_neg (by simp [hsig]), if_neg (by simp [hpda]), if_pos hfunded]

def c7owner : AccountInfo :=
  { key := 5, lamports := 100, data := [], owner := 0, is_signer := true }

def c7counter : AccountInfo :=
  { key := (find_program_address [leBytesN 32 5] 3).1, lamports := 1, data := [],
    owner := 3, is_signer := false }

def c7system : AccountInfo :=
  { key := 0, lamports := 0, data := [], owner := 0, is_signer := false }

/-- C7 witness: a funded counter at the derived address for owner key 5 under
program id 3; the dispatcher call succeeds and changes nothing. -/
theorem initialize_transfer_account_idempotent_witness :
    process 3 [c7owner, c7counter, c7system] [INITIALIZE_TRANSFER_ACCOUNT]
      = .ok [c7owner, c7counter, c7system] :=
  initialize_transfer_account_idempotent 3 c7owner c7counter c7system [] rfl rfl
    (by decide)

/-- C4: the transfer-state gate — whenever the source token account's
transfer-in-progress flag decodes to false, or the destination's does, an
Execute invocation fails with `ProgramCalledOutsideOfTransfer` whatever the
other presented accounts are, and (errors being all-or-nothing, §5) no
counter state is written. -/
theorem execute_gate_enforced
    (pid : Pubkey) (amount : Nat) (source mint dest authority metasInfo : AccountInfo)
    (rest : List AccountInfo) (fs fd : Bool)
    (hs : decodeTransferFlag source.data = .ok fs)
    (hd : decodeTransferFlag dest.data = .ok fd)
    (hgate : fs = false ∨ fd = false) :
    process_execute pid (source :: mint :: dest :: authority :: metasInfo :: rest) amount
      = .error (TransferHookError.toProgramError .ProgramCalledOutsideOfTransfer) := by
  rcases hgate with h | h
  · subst h
    have h1 : check_token_account_is_transferring source
        = .error (TransferHookError.toProgramError .ProgramCalledOutsideOfTransfer) := by
      rw [check_token_account_is_transferring, hs]
    simp [process_execute, h1]
  · subst h
    cases fs with
    | false =>
        have h1 : check_token_account_is_transferring source
            = .error (TransferHookError.toProgramError .ProgramCalledOutsideOfTransfer) := by
          rw [check_token_account_is_transferring, hs]
        simp [process_execute, h1]
    | true =>
        have h1 : check_token_account_is_transferring source = .ok () := by
          rw [check_token_account_is_transferring, hs]
        have h2 : check_token_account_is_transferring dest
            = .error (TransferHookError.toProgramError .ProgramCalledOutsideOfTransfer) := by
          rw [check_token_account_is_transferring, hd]
        simp [process_execute, h1, h2]

def c4source : AccountInfo :=
  { key := 20, lamports := 1, data := [1, 1], owner := 6, is_signer := false }

def c4dest : AccountInfo :=
  { key := 21, lamports := 1, data := [1, 0], owner := 6, is_signer := false }

def c4other : AccountInfo :=
  { key := 22, lamports := 1, data := [], owner := 6, is_signer := false }

/-- C4 witness: a destination account whose transferring flag is false makes
Execute fail with `ProgramCalledOutsideOfTransfer`. -/
theorem execute_gate_enforced_witness :
    process_execute 7 [c4source, c4other, c4dest, c4other, c4other] 100
      = .error (TransferHookError.toProgramError .ProgramCalledOutsideOfTransfer) :=
  execute_gate_enforced 7 100 c4source c4other c4dest c4other c4other [] true false
    rfl rfl (Or.inr rfl)

theorem check_account_infos_ok_deserialize (accounts : List AccountInfo)
    (instructionData : List Nat) (pid : Pubkey) (data : List Nat)
    (h : ExtraAccountMetaList.check_account_infos accounts instructionData pid data
      = .ok ()) : ∃ ms, deserializeList data = .ok ms := by
  unfold ExtraAccountMetaList.check_account_infos at h
  cases hd : deserializeList data with
  | error e => rw [hd] at h; cases h
  | ok ms => exact ⟨ms, rfl⟩

/-- C6: once an Execute invocation has passed the transfer gate, the
metadata-list address comparison and the account-set check, a trailing
counter account with zero lamports makes it fail `UninitializedAccount`,
and a funded counter account not owned by this program makes it fail
`IllegalOwner`; both are errors, so no state is written (§5). -/
theorem execute_counter_checks
    (pid : Pubkey) (amount : Nat)
    (source mint dest authority metasInfo counter : AccountInfo)
    (more : List AccountInfo)
    (hs : decodeTransferFlag source.data = .ok true)
    (hd : decodeTransferFlag dest.data = .ok true)
    (haddr : get_extra_account_metas_address mint.key pid = metasInfo.key)
    (hcheck : ExtraAccountMetaList.check_account_infos
        (source :: mint :: dest :: authority :: metasInfo :: counter :: more)
        (packExecuteInstruction amount) pid metasInfo.data = .ok ()) :
    (counter.lamports = 0 →
      process_execute pid
          (source :: mint :: dest :: authority :: metasInfo :: counter :: more) amount
        = .error .UninitializedAccount)
    ∧ (counter.lamports ≠ 0 → counter.owner ≠ pid →
      process_execute pid
          (source :: mint :: dest :: authority :: metasInfo :: counter :: more) amount
        = .error .IllegalOwner) := by
  have h1 : check_token_account_is_transferring source = .ok () := by
    rw [check_token_account_is_transferring, hs]
  have h2 : check_token_account_is_transferring dest = .ok () := by
    rw [check_token_account_is_transferring, hd]
  obtain ⟨ms, hdes⟩ := check_account_infos_ok_deserialize _ _ _ _ hcheck
  constructor
  · intro hz
    simp [process_execute, h1, h2, haddr, hcheck, hdes, hz]
  · intro hnz hown
    simp [process_execute, h1, h2, haddr, hcheck, hdes, hnz, hown]

def c6source : AccountInfo :=
  { key := 20, lamports := 1, data := [1, 1], owner := 6, is_signer := false }

def c6dest : AccountInfo :=
  { key := 21, lamports := 1, data := [1, 1], owner := 6, is_signer := false }

def c6mint : AccountInfo :=
  { key := 11, lamports := 1, data := [], owner := 6, is_signer := false }

def c6authority : AccountInfo :=
  { key := 22, lamports := 1, data := [], owner := 6, is_signer := false }

def c6metas : AccountInfo :=
  { key := get_extra_account_metas_address 11 7, lamports := 1,
    data := leBytesN 4 0, owner := 7, is_signer := false }

def c6counterEmpty : AccountInfo :=
  { key := 42, lamports := 0, data := [], owner := 7, is_signer := false }

def c6counterForeign : AccountInfo :=
  { key := 42, lamports := 1, data := [], owner := 8, is_signer := false }

/-- C6 witness: with a well-formed empty metadata list, an unfunded counter
yields `UninitializedAccount` and a funded counter owned by program 8 under
program id 7 yields `IllegalOwner`. -/
theorem execute_counter_checks_witness :
    process_execute 7 [c6source, c6mint, c6dest, c6authority, c6metas, c6counterEmpty] 5
      = .error .UninitializedAccount
    ∧ process_execute 7 [c6source, c6mint, c6dest, c6authority, c6metas, c6counterForeign] 5
      = .error .IllegalOwner :=
  ⟨(execute_counter_checks 7 5 c6source c6mint c6dest c6authority c6metas
      c6counterEmpty [] rfl rfl rfl rfl).1 rfl,
   (execute_counter_checks 7 5 c6source c6mint c6dest c6authority c6metas
      c6counterForeign [] rfl rfl rfl rfl).2 (by decide) (by decide)⟩

theorem update_transfered_unpack (data : List Nat) (n : Nat)
    (hlen : 40 ≤ data.length) :
    TransferAccount.unpack (TransferAccount.update_transfered data n)
      = .ok (fromLeBytes (data.take 32), n % 2 ^ 64) := by
  have h64 : (256 : Nat) ^ 8 = 2 ^ 64 := by norm_num
  have htk : (data.take 32).length = 32 := by rw [List.length_take]; omega
  have hwlen : (TransferAccount.update_transfered data n).length = data.length := by
    rw [TransferAccount.update_transfered]
    exact writeSlice_length _ _ _ (by rw [leBytesN_length]; omega)
  rw [TransferAccount.unpack, if_neg (by rw [hwlen, TransferAccount.LEN]; omega)]
  rw [TransferAccount.update_transfered, writeSlice, List.append_assoc]
  rw [take_append_of_length _ _ 32 htk, drop_append_of_length _ _ 32 htk]
  rw [take_append_of_length _ _ 8 (leBytesN_length 8 n)]
  rw [fromLeBytes_leBytesN, h64]

/-- C3 (amended): a successful Execute with payload `amount` on a counter
holding cumulative value `c` stores `(c + amount) mod 2 ^ 64` — the 8-byte
little-endian truncation of the sum — leaving the owner field untouched; the
stored field is non-decreasing exactly when the sum does not overflow the
64-bit word. -/
theorem execute_adds_amount
    (pid : Pubkey) (amount : Nat)
    (source mint dest authority metasInfo counter : AccountInfo)
    (more : List AccountInfo) (w c : Nat)
    (hs : decodeTransferFlag source.data = .ok true)
    (hd : decodeTransferFlag dest.data = .ok true)
    (haddr : get_extra_account_metas_address mint.key pid = metasInfo.key)
    (hcheck : ExtraAccountMetaList.check_account_infos
        (source :: mint :: dest :: authority :: metasInfo :: counter :: more)
        (packExecuteInstruction amount) pid metasInfo.data = .ok ())
    (hfund : counter.lamports ≠ 0) (hown : counter.owner = pid)
    (hunpack : TransferAccount.unpack counter.data = .ok (w, c)) :
    process_execute pid
        (source :: mint :: dest :: authority :: metasInfo :: counter :: more) amount
      = .ok (source :: mint :: dest :: authority :: metasInfo ::
          { counter with data := TransferAccount.update_transfered counter.data (c + amount) }
          :: more)
    ∧ TransferAccount.unpack
        (TransferAccount.update_transfered counter.data (c + amount))
        = .ok (w, (c + amount) % 2 ^ 64)
    ∧ (c + amount < 2 ^ 64 → c ≤ (c + amount) % 2 ^ 64) := by
  have h1 : check_token_account_is_transferring source = .ok () := by
    rw [check_token_account_is_transferring, hs]
  have h2 : check_token_account_is_transferring dest = .ok () := by
    rw [check_token_account_is_transferring, hd]
  obtain ⟨ms, hdes⟩ := check_account_infos_ok_deserialize _ _ _ _ hcheck
  have hlen : 40 ≤ counter.data.length := by
    by_contra hlt
    rw [TransferAccount.unpack,
      if_pos (by rw [TransferAccount.LEN]; omega)] at hunpack
    cases hunpack
  have hw : fromLeBytes (counter.data.take 32) = w := by
    rw [TransferAccount.unpack,
      if_neg (by rw [TransferAccount.LEN]; omega)] at hunpack
    exact (Prod.mk.injEq _ _ _ _ ▸ Except.ok.inj hunpack).1
  refine ⟨?_, ?_, ?_⟩
  · simp [process_execute, h1, h2, haddr, hcheck, hdes, hfund, hown, hunpack]
  · rw [update_transfered_unpack counter.data (c + amount) hlen, hw]
  · intro hlt
    rw [Nat.mod_eq_of_lt hlt]
    omega

def c3wcounter : AccountInfo :=
  { key := 42, lamports := 1, data := leBytesN 32 9 ++ leBytesN 8 10,
    owner := 7, is_signer := false }

/-- C3 witness: an Execute for amount 5 on a counter holding 10 succeeds and
stores 15. -/
theorem execute_adds_amount_witness :
    process_execute 7 [c6source, c6mint, c6dest, c6authority, c6metas, c3wcounter] 5
      = .ok [c6source, c6mint, c6dest, c6authority, c6metas,
          { c3wcounter with
              data := TransferAccount.update_transfered c3wcounter.data (10 + 5) }]
    ∧ TransferAccount.unpack
        (TransferAccount.update_transfered c3wcounter.data (10 + 5))
        = .ok (9, (10 + 5) % 2 ^ 64)
    ∧ (10 + 5 < 2 ^ 64 → 10 ≤ (10 + 5) % 2 ^ 64) :=
  execute_adds_amount 7 5 c6source c6mint c6dest c6authority c6metas c3wcounter
    [] 9 10 rfl rfl rfl rfl (by decide) rfl rfl

/-- The cumulative amount stored at the trailing counter position after a
handler invocation, when it succeeded. -/
def storedAmount (r : Except ProgramError (List AccountInfo)) : Option Nat :=
  match r with
  | .ok l =>
      match l[5]? with
      | some a =>
          match TransferAccount.unpack a.data with
          | .ok p => some p.2
          | .error _ => none
      | none => none
  | .error _ => none

def c3counter : AccountInfo :=
  { key := 42, lamports := 1, data := leBytesN 32 9 ++ leBytesN 8 (2 ^ 64 - 1),
    owner := 7, is_signer := false }

/-- C3 counterexample: on a counter holding `2 ^ 64 - 1`, an Execute with
amount 1 succeeds and the stored cumulative value afterwards is 0 — strictly
below the previous value, so the field is not monotonically non-decreasing
for all inputs. -/
theorem execute_overflow_counterexample :
    TransferAccount.unpack c3counter.data = .ok (9, 2 ^ 64 - 1)
    ∧ storedAmount
        (process_execute 7 [c6source, c6mint, c6dest, c6authority, c6metas, c3counter] 1)
        = some 0
    ∧ (0 : Nat) < 2 ^ 64 - 1 := by
  refine ⟨rfl, by decide, by norm_num⟩

def c2counter : AccountInfo :=
  { key := 42, lamports := 1, data := leBytesN 32 9 ++ leBytesN 8 0,
    owner := 7, is_signer := false }

/-- C2 counterexample: with an empty stored metadata list, an Execute
invocation succeeds and increments a trailing counter account bound (by its
stored owner field, key 9) to a derived address different from the presented
address 42 — the Execute handler accepted the caller-supplied counter address
without recomputing and comparing the derivation. -/
theorem execute_unverified_counter_counterexample :
    storedAmount
        (process_execute 7 [c6source, c6mint, c6dest, c6authority, c6metas, c2counter] 3)
      = some 3
    ∧ TransferAccount.unpack c2counter.data = .ok (9, 0)
    ∧ c2counter.key ≠ (find_program_address [leBytesN 32 9] 7).1 := by
  refine ⟨by decide, rfl, by decide⟩

/-- C2 (amended): the entry points that do accept a caller-supplied derived
account recompute and compare before use — `InitializeTransferAccount`
rejects a counter address differing from the derivation from the owner key
with `InvalidSeeds`, and `Execute` rejects a metadata-list address differing
from the derivation from the mint key with `InvalidSeeds`; but `Execute` does
not recompute the trailing counter account's derivation, checking only that
it is funded and program-owned (the counter-address binding is enforced only
by `InitializeTransferAccount`, or by the stored metadata list when it
constrains that position). -/
theorem derived_address_checks_enforced
    (pid : Pubkey) (amount : Nat) (o ta s : AccountInfo) (rest : List AccountInfo)
    (source mint dest authority metasInfo : AccountInfo) (rest2 : List AccountInfo)
    (hsig : o.is_signer = true)
    (hpda : ta.key ≠ (find_program_address [leBytesN 32 o.key] pid).1)
    (hs : decodeTransferFlag source.data = .ok true)
    (hd : decodeTransferFlag dest.data = .ok true)
    (haddr : get_extra_account_metas_address mint.key pid ≠ metasInfo.key) :
    process_initialize_transfer_account pid (o :: ta :: s :: rest)
      = .error .InvalidSeeds
    ∧ process_execute pid (source :: mint :: dest :: authority :: metasInfo :: rest2) amount
      = .error .InvalidSeeds := by
  constructor
  · rw [process_initialize_transfer_account, if_neg (by simp [hsig]), if_pos hpda]
  · have h1 : check_token_account_is_transferring source = .ok () := by
      rw [check_token_account_is_transferring, hs]
    have h2 : check_token_account_is_transferring dest = .ok () := by
      rw [check_token_account_is_transferring, hd]
    simp [process_execute, h1, h2, haddr]

def c2badCounter : AccountInfo :=
  { key := 999, lamports := 0, data := [], owner := 0, is_signer := false }

def c2badMetas : AccountInfo :=
  { key := 999, lamports := 1, data := leBytesN 4 0, owner := 7, is_signer := false }

/-- C2 witness: a counter address 999 is rejected by
`InitializeTransferAccount` and a metadata-list address 999 is rejected by
`Execute`, both with `InvalidSeeds`. -/
theorem derived_address_checks_enforced_witness :
    process_initialize_transfer_account 7 [c7owner, c2badCounter, c7system]
      = .error .InvalidSeeds
    ∧ process_execute 7 [c6source, c6mint, c6dest, c6authority, c2badMetas] 3
      = .error .InvalidSeeds :=
  derived_address_checks_enforced 7 3 c7owner c2badCounter c7system []
    c6source c6mint c6dest c6authority c2badMetas [] rfl (by decide) rfl rfl (by decide)

theorem serializeMeta_length (m : ExtraAccountMeta) :
    (serializeMeta m).length = metaSize := by
  simp [serializeMeta, metaSize, leBytesN_length]

theorem serializeList_length (metas : List ExtraAccountMeta) :
    (serializeList metas).length = headerSize + metaSize * metas.length := by
  rw [serializeList, List.length_append, leBytesN_length, List.length_flatten]
  have hsum : ∀ l : List ExtraAccountMeta,
      ((l.map serializeMeta).map List.length).sum = metaSize * l.length := by
    intro l
    induction l with
    | nil => simp
    | cons m r ih =>
        simp only [List.map_cons, List.sum_cons, serializeMeta_length, ih,
          List.length_cons, Nat.mul_succ]
        omega
  rw [hsum]

theorem resizeData_length (d : List Nat) (n : Nat) : (resizeData d n).length = n := by
  rw [resizeData]
  split
  · rw [List.length_take]; omega
  · simp; omega

theorem resizeData_grow_take (d : List Nat) (n : Nat) (h : d.length ≤ n) :
    (resizeData d n).take d.length = d := by
  rw [resizeData]
  split
  · next hle =>
      have hEq : n = d.length := le_antisymm hle h
      subst hEq
      simp
  · rw [List.take_left]

theorem update_exact (buf : List Nat) (metas : List ExtraAccountMeta)
    (hn : metas.length < 2 ^ 32)
    (hb : buf.length = headerSize + metaSize * metas.length) :
    ExtraAccountMetaList.update buf metas = .ok (serializeList metas) := by
  have hsz : ExtraAccountMetaList.size_of metas.length
      = .ok (headerSize + metaSize * metas.length) := by
    rw [ExtraAccountMetaList.size_of, if_pos hn]
  simp only [ExtraAccountMetaList.update, hsz]
  rw [if_neg (by omega), writeSlice_zero, serializeList_length]
  rw [← hb, List.drop_length, List.append_nil]

theorem update_larger (buf : List Nat) (metas : List ExtraAccountMeta)
    (hn : metas.length < 2 ^ 32)
    (hb : headerSize + metaSize * metas.length ≤ buf.length) :
    ExtraAccountMetaList.update buf metas
      = .ok (serializeList metas ++ buf.drop (headerSize + metaSize * metas.length)) := by
  have hsz : ExtraAccountMetaList.size_of metas.length
      = .ok (headerSize + metaSize * metas.length) := by
    rw [ExtraAccountMetaList.size_of, if_pos hn]
  simp only [ExtraAccountMetaList.update, hsz]
  rw [if_neg (by omega), writeSlice_zero, serializeList_length]

/-- C9: in the update handler, once the authority, address and initialisation
checks pass, growing (new size at least the original) first resizes storage to
`size_of(new count)` — a resize that keeps every original byte as a prefix —
and only then rewrites the entries, while shrinking first rewrites the entries
into the still-large buffer — so the full new serialisation is in place before
any truncation — and only then resizes; in both cases the final storage is
exactly the `size_of(new count)`-byte serialisation of the new entries. -/
theorem update_list_resize_ordering
    (pid : Pubkey) (metasInfo mint authority : AccountInfo) (rest : List AccountInfo)
    (metas : List ExtraAccountMeta) (k : Pubkey)
    (hmint : decodeMintAuthority mint.data = .ok (some k))
    (hsig : authority.is_signer = true)
    (hkey : authority.key = k)
    (haddr : get_extra_account_metas_address mint.key pid = metasInfo.key)
    (hown : metasInfo.owner = pid)
    (hinitialized : headerSize ≤ metasInfo.data.length)
    (hn : metas.length < 2 ^ 32) :
    (serializeList metas).length = headerSize + metaSize * metas.length
    ∧ (metasInfo.data.length ≤ headerSize + metaSize * metas.length →
        (resizeData metasInfo.data (headerSize + metaSize * metas.length)).take
            metasInfo.data.length = metasInfo.data
        ∧ process_update_extra_account_meta_list pid
            (metasInfo :: mint :: authority :: rest) metas
          = .ok ({ metasInfo with data := serializeList metas } :: mint :: authority :: rest))
    ∧ (headerSize + metaSize * metas.length < metasInfo.data.length →
        ExtraAccountMetaList.update metasInfo.data metas
          = .ok (serializeList metas
              ++ metasInfo.data.drop (headerSize + metaSize * metas.length))
        ∧ process_update_extra_account_meta_list pid
            (metasInfo :: mint :: authority :: rest) metas
          = .ok ({ metasInfo with data := serializeList metas }
              :: mint :: authority :: rest)) := by
  have hmin : ExtraAccountMetaList.size_of 0 = .ok headerSize := by
    rw [ExtraAccountMetaList.size_of, if_pos (by norm_num)]
    norm_num
  have hsz : ExtraAccountMetaList.size_of metas.length
      = .ok (headerSize + metaSize * metas.length) := by
    rw [ExtraAccountMetaList.size_of, if_pos hn]
  refine ⟨serializeList_length metas, ?_, ?_⟩
  · intro hgrow
    refine ⟨resizeData_grow_take _ _ hgrow, ?_⟩
    have hup : ExtraAccountMetaList.update
        (resizeData metasInfo.data (headerSize + metaSize * metas.length)) metas
        = .ok (serializeList metas) :=
      update_exact _ metas hn (resizeData_length _ _)
    simp only [process_update_extra_account_meta_list, hmint, hmin, hsz]
    rw [if_neg (by simp [hsig]), if_neg (by simp [hkey]), if_neg (by simp [haddr]),
      if_neg (by simp [hown]; omega), if_pos (by omega)]
    simp only [hup]
  · intro hshrink
    have hup : ExtraAccountMetaList.update metasInfo.data metas
        = .ok (serializeList metas
            ++ metasInfo.data.drop (headerSize + metaSize * metas.length)) :=
      update_larger _ metas hn (by omega)
    refine ⟨hup, ?_⟩
    have hfinal : resizeData
        (serializeList metas
          ++ metasInfo.data.drop (headerSize + metaSize * metas.length))
        (headerSize + metaSize * metas.length) = serializeList metas := by
      rw [resizeData, if_pos (by rw [List.length_append, serializeList_length]; omega)]
      exact take_append_of_length _ _ _ (serializeList_length metas)
    simp only [process_update_extra_account_meta_list, hmint, hmin, hsz]
    rw [if_neg (by simp [hsig]), if_neg (by simp [hkey]), if_neg (by simp [haddr]),
      if_neg (by simp [hown]; omega), if_neg (by omega)]
    simp only [hup, hfinal]

def c9meta : ExtraAccountMeta := { discriminator := 0, addressConfig := 11, flags := 0 }

def c9mint : AccountInfo :=
  { key := 11, lamports := 1, data := 2 :: 1 :: leBytesN 32 13, owner := 6,
    is_signer := false }

def c9authority : AccountInfo :=
  { key := 13, lamports := 1, data := [], owner := 0, is_signer := true }

def c9metasInfo : AccountInfo :=
  { key := get_extra_account_metas_address 11 7, lamports := 1,
    data := serializeList [c9meta, c9meta, c9meta], owner := 7, is_signer := false }

/-- C9 witness: shrinking a stored 3-entry list to 1 entry first rewrites the
entries into the still-large buffer, then truncates to `size_of(1)` bytes,
ending with exactly the new entry's serialisation. -/
theorem update_list_resize_ordering_witness :
    ExtraAccountMetaList.update c9metasInfo.data [c9meta]
      = .ok (serializeList [c9meta]
          ++ c9metasInfo.data.drop (headerSize + metaSize * 1))
    ∧ process_update_extra_account_meta_list 7 [c9metasInfo, c9mint, c9authority] [c9meta]
      = .ok ({ c9metasInfo with data := serializeList [c9meta] }
          :: c9mint :: c9authority :: []) :=
  (update_list_resize_ordering 7 c9metasInfo c9mint c9authority [] [c9meta] 13
    rfl rfl rfl rfl rfl (by decide) (by norm_num)).2.2 (by decide)

theorem decodeMintAuthority_error_eq (d : List Nat) (e : ProgramError)
    (h : decodeMintAuthority d = .error e) : e = .InvalidAccountData := by
  unfold decodeMintAuthority at h
  split at h
  · cases h
  · split at h
    · cases h
    · exact (Except.error.inj h).symm
  · exact (Except.error.inj h).symm

theorem size_of_error_eq (n : Nat) (e : ProgramError)
    (h : ExtraAccountMetaList.size_of n = .error e) : e = .InvalidAccountData := by
  rw [ExtraAccountMetaList.size_of] at h
  split at h
  · cases h
  · exact (Except.error.inj h).symm

theorem init_error_eq (buf : List Nat) (metas : List ExtraAccountMeta)
    (e : ProgramError) (h : ExtraAccountMetaList.init buf metas = .error e) :
    e = .InvalidAccountData := by
  rw [ExtraAccountMetaList.init] at h
  split at h
  · next e2 he =>
      have h1 := size_of_error_eq _ _ he
      have h2 := Except.error.inj h
      rw [h1] at h2
      exact h2.symm
  · split at h
    · exact (Except.error.inj h).symm
    · cases h

/-- C10: in `InitializeExtraAccountMetaList` the mint-authority-presence
check precedes the signer check: a mint that decodes with no recorded
authority fails the invocation with `MintHasNoMintAuthority` whether or not
the authority account signed, and `MissingRequiredSignature` is returned only
when the mint does record an authority and the presented authority account is
not a signer. -/
theorem initialize_list_authority_check_order
    (pid : Pubkey) (metasInfo mint authority sys : AccountInfo)
    (rest : List AccountInfo) (metas : List ExtraAccountMeta) :
    (decodeMintAuthority mint.data = .ok none →
      process_initialize_extra_account_meta_list pid
          (metasInfo :: mint :: authority :: sys :: rest) metas
        = .error (TransferHookError.toProgramError .MintHasNoMintAuthority))
    ∧ (process_initialize_extra_account_meta_list pid
          (metasInfo :: mint :: authority :: sys :: rest) metas
        = .error .MissingRequiredSignature →
      (∃ k, decodeMintAuthority mint.data = .ok (some k))
      ∧ authority.is_signer = false) := by
  constructor
  · intro hnone
    simp [process_initialize_extra_account_meta_list, hnone]
  · intro h
    cases hd : decodeMintAuthority mint.data with
    | error e =>
        have h1 := decodeMintAuthority_error_eq _ _ hd
        rw [h1] at hd
        simp [process_initialize_extra_account_meta_list, hd] at h
    | ok auth =>
        cases auth with
        | none =>
            simp [process_initialize_extra_account_meta_list, hd,
              TransferHookError.toProgramError, TransferHookError.code] at h
        | some k =>
            refine ⟨⟨k, rfl⟩, ?_⟩
            by_cases hsg : authority.is_signer = true
            · exfalso
              by_cases hk : authority.key = k
              · by_cases ha : (get_extra_account_metas_address_and_bump_seed
                    mint.key pid).1 = metasInfo.key
                · cases hsz : ExtraAccountMetaList.size_of metas.length with
                  | error e2 =>
                      have h1 := size_of_error_eq _ _ hsz
                      rw [h1] at hsz
                      simp [process_initialize_extra_account_meta_list, hd, hsg,
                        hk, ha, hsz] at h
                  | ok sz =>
                      cases hini : ExtraAccountMetaList.init (List.replicate sz 0)
                          metas with
                      | error e3 =>
                          have h1 := init_error_eq _ _ _ hini
                          rw [h1] at hini
                          simp [process_initialize_extra_account_meta_list, hd,
                            hsg, hk, ha, hsz, hini] at h
                      | ok newData =>
                          simp [process_initialize_extra_account_meta_list, hd,
                            hsg, hk, ha, hsz, hini] at h
                · simp [process_initialize_extra_account_meta_list, hd, hsg,
                    hk, ha] at h
              · simp [process_initialize_extra_account_meta_list, hd, hsg, hk,
                  TransferHookError.toProgramError, TransferHookError.code] at h
            · simp only [Bool.not_eq_true] at hsg
              exact hsg

def c10mint : AccountInfo :=
  { key := 11, lamports := 1, data := [2, 0], owner := 6, is_signer := false }

def c10authority : AccountInfo :=
  { key := 13, lamports := 1, data := [], owner := 0, is_signer := false }

def c10metasInfo : AccountInfo :=
  { key := get_extra_account_metas_address 11 7, lamports := 0, data := [],
    owner := 0, is_signer := false }

def c10system : AccountInfo :=
  { key := 0, lamports := 0, data := [], owner := 0, is_signer := false }

/-- C10 witness: a mint recording no authority makes the initialise-list
handler fail with `MintHasNoMintAuthority` even though the presented
authority account did not sign. -/
theorem initialize_list_authority_check_order_witness :
    process_initialize_extra_account_meta_list 7
        [c10metasInfo, c10mint, c10authority, c10system] []
      = .error (TransferHookError.toProgramError .MintHasNoMintAuthority) :=
  (initialize_list_authority_check_order 7 c10metasInfo c10mint c10authority
    c10system [] []).1 rfl

def c5mint : AccountInfo :=
  { key := 11, lamports := 1, data := [2, 0], owner := 6, is_signer := false }

def c5authority : AccountInfo :=
  { key := 13, lamports := 1, data := [], owner := 0, is_signer := true }

def c5metasInfo : AccountInfo :=
  { key := get_extra_account_metas_address 11 7, lamports := 1,
    data := leBytesN 4 0, owner := 7, is_signer := false }

/-- Serialised `UpdateExtraAccountMetaList` instruction with an empty entry
list. -/
def c5updateInput : List Nat := 2 :: leBytesN 4 0

/-- C5: on a mint recording no mint authority, an `UpdateExtraAccountMetaList`
invocation routed through the dispatcher returns success and changes nothing
— the dispatcher short-circuits that instruction — although the update
handler, run on the same accounts, fails with `MintHasNoMintAuthority` as the
claim demands. -/
theorem update_authority_check_skipped_divergence :
    process 7 [c5metasInfo, c5mint, c5authority] c5updateInput
      = .ok [c5metasInfo, c5mint, c5authority]
    ∧ process_update_extra_account_meta_list 7 [c5metasInfo, c5mint, c5authority] []
      = .error (TransferHookError.toProgramError .MintHasNoMintAuthority) :=
  ⟨rfl, rfl⟩

def c1meta : ExtraAccountMeta := { discriminator := 0, addressConfig := 11, flags := 0 }

def c1mint : AccountInfo :=
  { key := 11, lamports := 1, data := 2 :: 1 :: leBytesN 32 13, owner := 6,
    is_signer := false }

def c1authority : AccountInfo :=
  { key := 13, lamports := 1, data := [], owner := 0, is_signer := true }

/-- A metadata-list account that is not initialised: zero-length data, not
owned by the program. -/
def c1metasInfo : AccountInfo :=
  { key := get_extra_account_metas_address 11 7, lamports := 1, data := [],
    owner := 0, is_signer := false }

/-- Serialised `UpdateExtraAccountMetaList` instruction carrying one entry. -/
def c1updateInput : List Nat := 2 :: (leBytesN 4 1 ++ serializeMeta c1meta)

/-- C1: an `UpdateExtraAccountMetaList` instruction decodes correctly, yet the
dispatcher returns success leaving every account untouched even though the
metadata-list account is uninitialised (not program-owned, zero-length data) —
the update handler itself, run on the same state, fails with
`UninitializedAccount`; the dispatcher never performs the claimed
verification or rewrite because its update arm returns `Ok(())` with the
handler call commented out. -/
theorem update_dispatch_shortcircuit_divergence :
    unpackInstruction c1updateInput = .ok (.UpdateExtraAccountMetaList [c1meta])
    ∧ process 7 [c1metasInfo, c1mint, c1authority] c1updateInput
      = .ok [c1metasInfo, c1mint, c1authority]
    ∧ process_update_extra_account_meta_list 7 [c1metasInfo, c1mint, c1authority] [c1meta]
      = .error .UninitializedAccount :=
  ⟨rfl, rfl, rfl⟩
